import Mathlib

/-!
Shallow embedding of `examples/rust_example.rs` from the
sqlite-icu-tokenizer repository, together with proofs about it.

The example program has two pieces of contract logic:

* `get_platform_binary` — the Binary Resolver: maps the current
  (operating system, CPU architecture) pair to a pre-built extension
  filename through a fixed four-entry lookup table, or fails.
* `setup_icu_extension` — the Extension Loader: checks the resolved
  binary exists on disk, then brackets a single native load attempt
  between enabling and disabling the connection's extension-loading
  permission flag.

The Rust code reads `env::consts::OS` / `env::consts::ARCH` and touches
the filesystem and the SQLite engine; here those external inputs are
packaged in an `Env` record (os and arch strings, a filesystem existence
predicate, the outcome of the native load call, and the engine's ranked
match results for full-text queries), so every function below is a pure
function of `Env` and its explicit arguments.  Connection-flag mutations
and the native load call are recorded as an explicit event trace.
-/

/-- Mirrors the Rust struct `SearchResult` (`id`, `title`, `snippet`,
`relevance`) produced by `IcuSearch::search`. -/
structure SearchResultRow where
  id : Int
  title : String
  snippet : String
  relevance : Float

/-- External inputs of the example program: the process's platform
identifiers, the filesystem (existence of a file at a name relative to
the working directory), the result of the native `load_extension` call
(`none` = success, `some e` = failure with underlying engine error `e`),
and, for the query layer, the engine's bm25-ranked match results for a
(table, query) pair. -/
structure Env where
  os : String
  arch : String
  fileExists : String → Bool
  loadResult : String → Option String
  queryMatches : String → String → List SearchResultRow

/-- A SQLite connection, reduced to the single piece of state the
example mutates: the extension-loading permission flag. -/
structure Conn where
  extensionLoadingEnabled : Bool
deriving DecidableEq, Repr

/-- Observable actions `setup_icu_extension` performs on the connection:
enabling the permission flag, attempting the native load of a named
binary, and disabling the flag. -/
inductive Event where
  | enable : Event
  | loadAttempt : String → Event
  | disable : Event
deriving DecidableEq, Repr

/-- Effect of one event on the connection state: `load_extension_enable`
sets the permission flag, `load_extension_disable` clears it, the load
attempt itself does not change the flag. -/
def applyEvent (c : Conn) : Event → Conn
  | .enable => { c with extensionLoadingEnabled := true }
  | .disable => { c with extensionLoadingEnabled := false }
  | .loadAttempt _ => c

/-- Connection flag after replaying a trace from an initial flag
value. -/
def flagAfter (init : Bool) (tr : List Event) : Bool :=
  (tr.foldl applyEvent { extensionLoadingEnabled := init }).extensionLoadingEnabled

/-- Embedding of `get_platform_binary` (rust_example.rs lines 16–29):
a sequential match of the (os, arch) pair against the four table
entries; any other pair produces the formatted error message
`No pre-built binary available for {os}-{arch}`.  The function takes
only the two platform identifiers: it sees neither the filesystem, nor
the engine, nor any connection. -/
def get_platform_binary (os arch : String) : Except String String :=
  if os = "linux" ∧ arch = "x86_64" then .ok "fts5icu-linux-x86_64.so"
  else if os = "macos" ∧ arch = "x86_64" then .ok "fts5icu-darwin-x86_64.dylib"
  else if os = "macos" ∧ arch = "aarch64" then .ok "fts5icu-darwin-arm64.dylib"
  else if os = "windows" ∧ arch = "x86_64" then .ok "fts5icu-win32-x86_64.dll"
  else .error ("No pre-built binary available for " ++ os ++ "-" ++ arch)

/-- Embedding of `setup_icu_extension` (rust_example.rs lines 32–64).
Control flow of the source: resolve the platform binary (an `Err` is
wrapped as `Platform detection failed: {e}`); check the file exists
(otherwise return the fixed error string `Binary not found`); then
`load_extension_enable`, one `load_extension` call, and
`load_extension_disable` on both the success and the failure arm, the
failure arm returning the underlying engine error.  The connection-flag
mutations and the load call are recorded as the event trace, and the
returned connection is the initial one with the trace replayed. -/
def setup_icu_extension (env : Env) (conn : Conn) :
    Except String Unit × Conn × List Event :=
  match get_platform_binary env.os env.arch with
  | .error e => (.error ("Platform detection failed: " ++ e), conn, [])
  | .ok binary_name =>
    if env.fileExists binary_name then
      let trace : List Event := [.enable, .loadAttempt binary_name, .disable]
      match env.loadResult binary_name with
      | none => (.ok (), trace.foldl applyEvent conn, trace)
      | some e => (.error e, trace.foldl applyEvent conn, trace)
    else
      (.error "Binary not found", conn, [])

/-- Mirrors the Rust struct `IcuSearch`: a wrapper around a
connection. -/
structure IcuSearch where
  conn : Conn

/-- Embedding of `IcuSearch::new` (rust_example.rs lines 254–264): open
a connection (`Connection::open_in_memory` for the `:memory:` marker,
`Connection::open` otherwise — either way a fresh connection whose
extension-loading flag starts disabled, the SQLite default), run
`setup_icu_extension` on it, propagate its error with `?`, and otherwise
wrap the connection.  The setup event trace is returned alongside. -/
def IcuSearch.new (env : Env) (db_path : String) :
    Except String IcuSearch × List Event :=
  let conn : Conn :=
    if db_path = ":memory:" then { extensionLoadingEnabled := false }
    else { extensionLoadingEnabled := false }
  match setup_icu_extension env conn with
  | (.ok _, conn1, tr) => (.ok { conn := conn1 }, tr)
  | (.error e, _, tr) => (.error e, tr)

/-- SQL text generated by `IcuSearch::search` (rust_example.rs lines
287–295) for a table name, exactly as the Rust `format!` call builds
it. -/
def searchSQL (table_name : String) : String :=
  "\n            SELECT id, title, \n                   snippet("
    ++ table_name
    ++ ", 2, '<mark>', '</mark>', '...', 20) as snippet,\n                   bm25("
    ++ table_name
    ++ ") as relevance\n            FROM "
    ++ table_name
    ++ " \n            WHERE "
    ++ table_name
    ++ " MATCH ?\n            ORDER BY bm25("
    ++ table_name
    ++ ")\n            LIMIT 50\n        "

/-- Embedding of `IcuSearch::search` (rust_example.rs lines 286–307):
the generated statement `searchSQL table_name` asks the engine for the
rows matching the query ordered by bm25 relevance and capped by
`LIMIT 50`.  The engine's ranked match results are
`env.queryMatches table_name query`; the `LIMIT 50` clause of the
generated SQL is interpreted as taking the first 50 of them. -/
def IcuSearch.search (env : Env) (_s : IcuSearch) (table_name query : String) :
    Except String (List SearchResultRow) :=
  .ok ((env.queryMatches table_name query).take 50)

/-- Whether an event is a native load attempt. -/
def isLoadEvent : Event → Bool
  | .loadAttempt _ => true
  | _ => false

/-- Case analysis on `setup_icu_extension`: every invocation falls in
exactly one of the four return paths of the source (unsupported
platform, missing binary, successful load, failed load), with the
stated result, final connection and event trace.  Shared helper for the
theorems below. -/
theorem setup_cases (env : Env) (conn : Conn) :
    (∃ e, get_platform_binary env.os env.arch = .error e
      ∧ setup_icu_extension env conn
          = (.error ("Platform detection failed: " ++ e), conn, []))
    ∨ (∃ n, get_platform_binary env.os env.arch = .ok n
      ∧ env.fileExists n = false
      ∧ setup_icu_extension env conn = (.error "Binary not found", conn, []))
    ∨ (∃ n, get_platform_binary env.os env.arch = .ok n
      ∧ env.fileExists n = true
      ∧ env.loadResult n = none
      ∧ setup_icu_extension env conn
          = (.ok (), { conn with extensionLoadingEnabled := false },
             [.enable, .loadAttempt n, .disable]))
    ∨ (∃ n e, get_platform_binary env.os env.arch = .ok n
      ∧ env.fileExists n = true
      ∧ env.loadResult n = some e
      ∧ setup_icu_extension env conn
          = (.error e, { conn with extensionLoadingEnabled := false },
             [.enable, .loadAttempt n, .disable])) := by
  cases hres : get_platform_binary env.os env.arch with
  | error e =>
    exact Or.inl ⟨e, rfl, by simp [setup_icu_extension, hres]⟩
  | ok n =>
    cases hex : env.fileExists n with
    | false =>
      exact Or.inr (Or.inl ⟨n, rfl, hex, by simp [setup_icu_extension, hres, hex]⟩)
    | true =>
      cases hload : env.loadResult n with
      | none =>
        refine Or.inr (Or.inr (Or.inl ⟨n, rfl, hex, hload, ?_⟩))
        simp [setup_icu_extension, hres, hex, hload, applyEvent]
      | some e =>
        refine Or.inr (Or.inr (Or.inr ⟨n, e, rfl, hex, hload, ?_⟩))
        simp [setup_icu_extension, hres, hex, hload, applyEvent]

/-- C1: for each of the four (os, arch) pairs in the lookup table,
`get_platform_binary` returns `Ok` with exactly the listed filename. -/
theorem resolver_table_exact :
    get_platform_binary "linux" "x86_64" = .ok "fts5icu-linux-x86_64.so"
    ∧ get_platform_binary "macos" "x86_64" = .ok "fts5icu-darwin-x86_64.dylib"
    ∧ get_platform_binary "macos" "aarch64" = .ok "fts5icu-darwin-arm64.dylib"
    ∧ get_platform_binary "windows" "x86_64" = .ok "fts5icu-win32-x86_64.dll" := by
  refine ⟨?_, ?_, ?_, ?_⟩ <;> simp [get_platform_binary]

/-- C2: whenever `setup_icu_extension` is called on a connection whose
extension-loading permission flag is disabled, the flag is disabled
again when the call returns, on every return path (success, unsupported
platform, missing binary, native load failure). -/
theorem setup_flag_disabled_on_return (env : Env) (conn : Conn)
    (h : conn.extensionLoadingEnabled = false) :
    (setup_icu_extension env conn).2.1.extensionLoadingEnabled = false := by
  unfold setup_icu_extension
  split
  · exact h
  · split
    · split <;> rfl
    · exact h

/-- Closed instance of `setup_flag_disabled_on_return` on a concrete
environment (linux/x86_64, binary present, load succeeds). -/
theorem setup_flag_disabled_on_return_witness :
    (setup_icu_extension
      ⟨"linux", "x86_64", fun _ => true, fun _ => none, fun _ _ => []⟩
      ⟨false⟩).2.1.extensionLoadingEnabled = false :=
  setup_flag_disabled_on_return
    ⟨"linux", "x86_64", fun _ => true, fun _ => none, fun _ _ => []⟩
    ⟨false⟩ rfl

/-- C4: if the resolver succeeds but the binary file does not exist, the
Loader returns the `Binary not found` error with the connection
untouched and an empty event trace: the native load call is never
invoked and the permission flag is never modified on this path. -/
theorem setup_binary_missing_untouched (env : Env) (conn : Conn)
    (name : String)
    (hres : get_platform_binary env.os env.arch = .ok name)
    (hmiss : env.fileExists name = false) :
    setup_icu_extension env conn = (.error "Binary not found", conn, []) := by
  unfold setup_icu_extension
  rw [hres]
  simp [hmiss]

/-- Closed instance of `setup_binary_missing_untouched` on a concrete
environment (linux/x86_64, no file exists). -/
theorem setup_binary_missing_untouched_witness :
    setup_icu_extension
      ⟨"linux", "x86_64", fun _ => false, fun _ => none, fun _ _ => []⟩
      ⟨false⟩
    = (.error "Binary not found", ⟨false⟩, []) :=
  setup_binary_missing_untouched
    ⟨"linux", "x86_64", fun _ => false, fun _ => none, fun _ _ => []⟩
    ⟨false⟩ "fts5icu-linux-x86_64.so" (by simp [get_platform_binary]) rfl

/-- C3: for every (os, arch) pair outside the four table entries,
`get_platform_binary` fails with the error message naming the unmatched
os and arch, and never returns a filename: no fallback, no partial
match, no default binary. -/
theorem resolver_unsupported (os arch : String)
    (h : ¬((os = "linux" ∧ arch = "x86_64") ∨ (os = "macos" ∧ arch = "x86_64")
      ∨ (os = "macos" ∧ arch = "aarch64") ∨ (os = "windows" ∧ arch = "x86_64"))) :
    get_platform_binary os arch
      = .error ("No pre-built binary available for " ++ os ++ "-" ++ arch) := by
  unfold get_platform_binary
  split_ifs with h1 h2 h3 h4
  · exact absurd (Or.inl h1) h
  · exact absurd (Or.inr (Or.inl h2)) h
  · exact absurd (Or.inr (Or.inr (Or.inl h3))) h
  · exact absurd (Or.inr (Or.inr (Or.inr h4))) h
  · rfl

/-- Closed instance of `resolver_unsupported`: the spec's scenario for
the unlisted pair (freebsd, x86_64). -/
theorem resolver_unsupported_witness :
    get_platform_binary "freebsd" "x86_64"
      = .error ("No pre-built binary available for "
          ++ "freebsd" ++ "-" ++ "x86_64") :=
  resolver_unsupported "freebsd" "x86_64" (by simp)

/-- C5 as stated fails on the code: on a linux/x86_64 environment whose
resolved binary `fts5icu-linux-x86_64.so` is absent, the Loader returns
the fixed error string `Binary not found`, and that error value does
not contain the missing filename. -/
theorem setup_missing_error_counterexample :
    (setup_icu_extension
      ⟨"linux", "x86_64", fun _ => false, fun _ => none, fun _ _ => []⟩
      ⟨false⟩).1 = .error "Binary not found"
    ∧ ¬ ("fts5icu-linux-x86_64.so".data <:+: "Binary not found".data) := by
  constructor
  · simp [setup_icu_extension, get_platform_binary]
  · decide

/-- C5 amended: when the Loader fails because the resolved binary is
absent, the error returned to the caller is the fixed string
`Binary not found` — it does not carry the missing filename (the name
appears only in the diagnostic output) — and the connection's
permission flag is left false. -/
theorem setup_missing_error_fixed (env : Env) (conn : Conn) (name : String)
    (hres : get_platform_binary env.os env.arch = .ok name)
    (hmiss : env.fileExists name = false)
    (hflag : conn.extensionLoadingEnabled = false) :
    (setup_icu_extension env conn).1 = .error "Binary not found"
    ∧ ¬ (name.data <:+: "Binary not found".data)
    ∧ (setup_icu_extension env conn).2.1.extensionLoadingEnabled = false := by
  have hsetup : setup_icu_extension env conn
      = (.error "Binary not found", conn, []) := by
    unfold setup_icu_extension
    rw [hres]
    simp [hmiss]
  refine ⟨by rw [hsetup], ?_, by rw [hsetup]; exact hflag⟩
  unfold get_platform_binary at hres
  split_ifs at hres
  all_goals first
    | exact Except.noConfusion hres
    | (injection hres with hname; subst hname; decide)

/-- Closed instance of `setup_missing_error_fixed` on a concrete
environment (macos/aarch64, no file exists). -/
theorem setup_missing_error_fixed_witness :
    (setup_icu_extension
      ⟨"macos", "aarch64", fun _ => false, fun _ => none, fun _ _ => []⟩
      ⟨false⟩).1 = .error "Binary not found"
    ∧ ¬ ("fts5icu-darwin-arm64.dylib".data <:+: "Binary not found".data)
    ∧ (setup_icu_extension
      ⟨"macos", "aarch64", fun _ => false, fun _ => none, fun _ _ => []⟩
      ⟨false⟩).2.1.extensionLoadingEnabled = false :=
  setup_missing_error_fixed _ _ "fts5icu-darwin-arm64.dylib"
    (by simp [get_platform_binary]) rfl rfl

/-- Replaying any prefix of the bracket trace that is followed
immediately by a load attempt leaves the permission flag enabled:
within `[enable, loadAttempt n, disable]` the only load attempt sits
right after the enable.  Shared helper for the bracket theorem. -/
theorem bracket_prefix_flag (conn : Conn) (n : String) :
    ∀ pre m post,
      ([Event.enable, Event.loadAttempt n, Event.disable] : List Event)
        = pre ++ Event.loadAttempt m :: post →
      (pre.foldl applyEvent conn).extensionLoadingEnabled = true := by
  intro pre m post hsplit
  rcases pre with _ | ⟨a, _ | ⟨b, _ | ⟨c, rest⟩⟩⟩
  · simp at hsplit
  · simp at hsplit
    obtain ⟨ha, -⟩ := hsplit
    subst ha
    rfl
  · simp at hsplit
  · simp at hsplit

/-- C6: every invocation of `setup_icu_extension` that reaches the load
attempt produces exactly the event trace enable, one load of the
resolved binary, disable: the permission flag is mutated exactly twice
(enabled, then disabled) around a single load attempt, no second load
occurs, and at every point where a load attempt appears in the trace
the flag replayed over the preceding events is enabled — the load never
runs while the flag is disabled. -/
theorem setup_bracket (env : Env) (conn : Conn)
    (h : ∃ m, Event.loadAttempt m ∈ (setup_icu_extension env conn).2.2) :
    ∃ n, get_platform_binary env.os env.arch = .ok n
      ∧ (setup_icu_extension env conn).2.2
          = [Event.enable, Event.loadAttempt n, Event.disable]
      ∧ ∀ pre m post,
          (setup_icu_extension env conn).2.2 = pre ++ Event.loadAttempt m :: post →
          (pre.foldl applyEvent conn).extensionLoadingEnabled = true := by
  rcases setup_cases env conn with ⟨e, hres, heq⟩ | ⟨n, hres, hex, heq⟩
    | ⟨n, hres, hex, hload, heq⟩ | ⟨n, e, hres, hex, hload, heq⟩
  · rw [heq] at h
    simp at h
  · rw [heq] at h
    simp at h
  · refine ⟨n, hres, by rw [heq], ?_⟩
    rw [heq]
    exact bracket_prefix_flag conn n
  · refine ⟨n, hres, by rw [heq], ?_⟩
    rw [heq]
    exact bracket_prefix_flag conn n

/-- Closed instance of `setup_bracket` on a concrete environment
(macos/aarch64, binary present, load succeeds). -/
theorem setup_bracket_witness :
    (∃ m, Event.loadAttempt m ∈ (setup_icu_extension
      ⟨"macos", "aarch64", fun _ => true, fun _ => none, fun _ _ => []⟩
      ⟨false⟩).2.2)
    ∧ ∃ n, get_platform_binary "macos" "aarch64" = .ok n
      ∧ (setup_icu_extension
          ⟨"macos", "aarch64", fun _ => true, fun _ => none, fun _ _ => []⟩
          ⟨false⟩).2.2
          = [Event.enable, Event.loadAttempt n, Event.disable]
      ∧ ∀ pre m post,
          (setup_icu_extension
            ⟨"macos", "aarch64", fun _ => true, fun _ => none, fun _ _ => []⟩
            ⟨false⟩).2.2 = pre ++ Event.loadAttempt m :: post →
          (pre.foldl applyEvent ⟨false⟩).extensionLoadingEnabled = true :=
  ⟨⟨"fts5icu-darwin-arm64.dylib", by decide⟩,
   setup_bracket
     ⟨"macos", "aarch64", fun _ => true, fun _ => none, fun _ _ => []⟩
     ⟨false⟩
     ⟨"fts5icu-darwin-arm64.dylib", by decide⟩⟩

/-- C7: the Loader fails exactly when platform resolution fails, the
binary file is absent, or the native load call fails: success is
equivalent to all three steps succeeding; a native load failure
surfaces the underlying engine error unchanged to the caller; and the
trace never contains more than one load attempt (no internal retry). -/
theorem setup_error_exactly (env : Env) (conn : Conn) :
    ((setup_icu_extension env conn).1 = .ok () ↔
      ∃ n, get_platform_binary env.os env.arch = .ok n
        ∧ env.fileExists n = true ∧ env.loadResult n = none)
    ∧ (∀ n e, get_platform_binary env.os env.arch = .ok n →
        env.fileExists n = true → env.loadResult n = some e →
        (setup_icu_extension env conn).1 = .error e)
    ∧ (setup_icu_extension env conn).2.2.countP isLoadEvent ≤ 1 := by
  rcases setup_cases env conn with ⟨e, hres, heq⟩ | ⟨n, hres, hex, heq⟩
    | ⟨n, hres, hex, hload, heq⟩ | ⟨n, e, hres, hex, hload, heq⟩
  · simp [heq, hres, isLoadEvent]
  · simp [heq, hres, hex, isLoadEvent]
    intro n1 e h1 h2
    rw [← h1, hex] at h2
    simp at h2
  · simp [heq, hres, hex, hload, isLoadEvent, List.countP_cons]
    intro n1 e h1 h2
    subst h1
    rw [hload]
    simp
  · simp [heq, hres, hex, hload, isLoadEvent, List.countP_cons]
    intro n1 e1 h1 h2 h3
    subst h1
    rw [hload] at h3
    exact Option.some.inj h3

/-- Closed instance of `setup_error_exactly`: a linux/x86_64
environment whose native load fails with the engine error `boom`
surfaces exactly that error. -/
theorem setup_error_exactly_witness :
    (setup_icu_extension
      ⟨"linux", "x86_64", fun _ => true, fun _ => some "boom", fun _ _ => []⟩
      ⟨false⟩).1 = .error "boom" :=
  (setup_error_exactly
    ⟨"linux", "x86_64", fun _ => true, fun _ => some "boom", fun _ _ => []⟩
    ⟨false⟩).2.1 "fts5icu-linux-x86_64.so" "boom"
    (by simp [get_platform_binary]) rfl rfl

/-- C8: the Binary Resolver is a deterministic function of the
(os, arch) pair alone: two invocations under environments agreeing on
os and arch — but with arbitrarily different filesystems and engine
behaviour — return identical results.  In this embedding
`get_platform_binary` takes no connection and no filesystem at all, so
it performs no I/O and cannot touch the connection. -/
theorem resolver_deterministic (env1 env2 : Env)
    (hos : env1.os = env2.os) (harch : env1.arch = env2.arch) :
    get_platform_binary env1.os env1.arch
      = get_platform_binary env2.os env2.arch := by
  rw [hos, harch]

/-- Closed instance of `resolver_deterministic`: two environments that
share linux/x86_64 but disagree on everything else resolve to the same
result. -/
theorem resolver_deterministic_witness :
    get_platform_binary
      (Env.os ⟨"linux", "x86_64", fun _ => true, fun _ => none, fun _ _ => []⟩)
      (Env.arch ⟨"linux", "x86_64", fun _ => true, fun _ => none, fun _ _ => []⟩)
    = get_platform_binary
      (Env.os ⟨"linux", "x86_64", fun _ => false, fun _ => some "x", fun _ _ => []⟩)
      (Env.arch ⟨"linux", "x86_64", fun _ => false, fun _ => some "x", fun _ _ => []⟩) :=
  resolver_deterministic _ _ rfl rfl

/-- C9: `IcuSearch.new` produces an instance exactly when
`setup_icu_extension` succeeded on the freshly opened connection (whose
permission flag starts disabled): a produced instance wraps a
connection on which the load completed — the resolved binary was
load-attempted and the engine reported success — with the permission
flag disabled again; and any setup error is propagated unchanged, with
no instance produced. -/
theorem new_wraps_loaded_connection (env : Env) (db_path : String) :
    (∀ s, (IcuSearch.new env db_path).1 = .ok s →
      (setup_icu_extension env ⟨false⟩).1 = .ok ()
      ∧ s.conn.extensionLoadingEnabled = false
      ∧ ∃ n, get_platform_binary env.os env.arch = .ok n
          ∧ env.loadResult n = none
          ∧ Event.loadAttempt n ∈ (IcuSearch.new env db_path).2)
    ∧ (∀ e, (setup_icu_extension env ⟨false⟩).1 = .error e →
      (IcuSearch.new env db_path).1 = .error e) := by
  have hnew : IcuSearch.new env db_path
      = (match setup_icu_extension env ⟨false⟩ with
        | (.ok _, conn1, tr) => (.ok { conn := conn1 }, tr)
        | (.error e, _, tr) => (.error e, tr)) := by
    unfold IcuSearch.new
    rw [ite_self]
  rcases setup_cases env ⟨false⟩ with ⟨e, hres, heq⟩ | ⟨n, hres, hex, heq⟩
    | ⟨n, hres, hex, hload, heq⟩ | ⟨n, e, hres, hex, hload, heq⟩
  · rw [heq] at hnew
    simp [hnew, heq]
  · rw [heq] at hnew
    simp [hnew, heq]
  · rw [heq] at hnew
    refine ⟨?_, ?_⟩
    · intro s hs
      rw [hnew] at hs
      simp at hs
      refine ⟨by rw [heq], ?_, n, hres, hload, ?_⟩
      · rw [← hs]
      · rw [hnew]
        simp
    · intro e hcontra
      rw [heq] at hcontra
      simp at hcontra
  · rw [heq] at hnew
    simp [hnew, heq]

/-- Closed instance of `new_wraps_loaded_connection`: on a windows
environment whose load fails with the engine error `denied`,
`IcuSearch.new` propagates exactly that error. -/
theorem new_wraps_loaded_connection_witness :
    (IcuSearch.new
      ⟨"windows", "x86_64", fun _ => true, fun _ => some "denied", fun _ _ => []⟩
      ":memory:").1 = .error "denied" :=
  (new_wraps_loaded_connection
    ⟨"windows", "x86_64", fun _ => true, fun _ => some "denied", fun _ _ => []⟩
    ":memory:").2 "denied" (by simp [setup_icu_extension, get_platform_binary])

/-- C10: every successful `IcuSearch.search` call returns at most 50
rows — the cap that the `LIMIT 50` clause of the generated SQL imposes
on the engine's ranked match results. -/
theorem search_at_most_50 (env : Env) (s : IcuSearch) (t q : String)
    (rs : List SearchResultRow)
    (h : IcuSearch.search env s t q = .ok rs) :
    rs.length ≤ 50 := by
  unfold IcuSearch.search at h
  injection h with h
  rw [← h]
  exact List.length_take_le 50 _

/-- Closed instance of `search_at_most_50`: a concrete search over an
engine with no matching rows succeeds with at most 50 rows. -/
theorem search_at_most_50_witness :
    IcuSearch.search
      ⟨"linux", "x86_64", fun _ => true, fun _ => none, fun _ _ => []⟩
      ⟨⟨false⟩⟩ "docs" "q" = .ok []
    ∧ ([] : List SearchResultRow).length ≤ 50 :=
  ⟨rfl,
   search_at_most_50
     ⟨"linux", "x86_64", fun _ => true, fun _ => none, fun _ _ => []⟩
     ⟨⟨false⟩⟩ "docs" "q" [] rfl⟩
